import Mathlib

/-!
Verification of the botnetworkpolicy-operator reconciliation and provider
subsystem. Go functions from `pkg/providers` and `pkg/controllers` and
`api/v1alpha1` are shallowly embedded as executable Lean definitions; the
stateful reconcile loop is embedded as a pure function over an explicit
environment (provider fetch outcomes and the cluster lookup result).
Strings are ASCII in all relevant inputs, so Go's Unicode-aware
`strings.TrimSpace` / `ToLower` / `ToUpper` coincide with the character-wise
models below.
-/

namespace BotNP

/-- ASCII whitespace as trimmed by Go `strings.TrimSpace` on the inputs in
scope (space, tab, newline, carriage return). -/
def isSpaceChar (c : Char) : Bool := c == ' ' || c == '\t' || c == '\n' || c == '\r'

/-- Model of Go `strings.TrimSpace` (agrees on ASCII whitespace), written
over the character list so that it evaluates by kernel reduction. -/
def goTrim (s : String) : String :=
  String.mk (((s.data.dropWhile isSpaceChar).reverse.dropWhile isSpaceChar).reverse)

/-- Model of Go `strings.ToLower` (agrees on ASCII). -/
def goLower (s : String) : String := String.mk (s.data.map Char.toLower)

/-- Model of Go `strings.ToUpper` (agrees on ASCII). -/
def goUpper (s : String) : String := String.mk (s.data.map Char.toUpper)

/-- Model of Go `strings.EqualFold` (ASCII case-insensitive equality). -/
def eqFold (a b : String) : Bool := goLower a == goLower b

/-- Split a character list at every separator character, keeping empty
pieces, accumulating the current piece in reverse. -/
def splitCharsAux (p : Char → Bool) : List Char → List Char → List String
  | [], acc => [String.mk acc.reverse]
  | c :: rest, acc =>
    if p c then String.mk acc.reverse :: splitCharsAux p rest []
    else splitCharsAux p rest (c :: acc)

/-- Model of Go `strings.Split(s, ".")`: split at every dot, keeping empty
pieces; the empty string yields `[""]`. -/
def splitOnDot (s : String) : List String :=
  splitCharsAux (fun c => c == '.') s.data []

/-- Byte-wise lexicographic comparison of Go string `<` (ASCII, where byte
order and scalar order agree), over character lists. -/
def charListLt : List Char → List Char → Bool
  | [], [] => false
  | [], _ :: _ => true
  | _ :: _, [] => false
  | a :: as, b :: bs =>
    if a.toNat < b.toNat then true
    else if b.toNat < a.toNat then false
    else charListLt as bs

/-- Go string `<` as used by `sort.Strings`, `sort.Slice` and `sets.List`. -/
def strLt (a b : String) : Bool := charListLt a.data b.data

/-- A decoded JSON document, the result of Go `encoding/json` unmarshalling
into `any`: `null`, `bool`, `float64` numbers, `string`, `[]any`, and
`map[string]any` (modelled as an association list with unique keys). -/
inductive Json where
  | null : Json
  | bool : Bool → Json
  | num : Int → Json
  | str : String → Json
  | arr : List Json → Json
  | obj : List (String × Json) → Json

/-- Lookup in a decoded JSON object (Go `m[key]`, first binding wins; the
decoder produces unique keys). -/
def jsonLookup (fields : List (String × Json)) (key : String) : Option Json :=
  match fields with
  | [] => none
  | (k, v) :: rest => if k = key then some v else jsonLookup rest key

/-- `navigateField`'s loop over the already-split segment list
(from `pkg/providers/jsonendpoint.go`): empty segments are skipped, a
non-object current value is a "not an object" error, a missing key is a
"missing segment" error. -/
def navigateSegs : Json → List String → Except String Json
  | current, [] => .ok current
  | current, seg :: rest =>
    if seg = "" then navigateSegs current rest
    else
      match current with
      | .obj fields =>
        match jsonLookup fields seg with
        | some next => navigateSegs next rest
        | none => .error ("missing segment \"" ++ seg ++ "\"")
      | _ => .error ("segment \"" ++ seg ++ "\" not an object")

/-- Go `navigateField(input, path)`: split the dot-separated path and walk
the document (`strings.Split(path, ".")` yields `[""]` on the empty path). -/
def navigateField (input : Json) (path : String) : Except String Json :=
  navigateSegs input (splitOnDot path)

/-- The accumulation loop shared by `sanitize` and `ExtractCIDRs`: trim each
token, drop the ones that trim to empty, keep order. -/
def trimDropEmpty : List String → List String
  | [] => []
  | c :: rest =>
    let trimmed := goTrim c
    if trimmed = "" then trimDropEmpty rest else trimmed :: trimDropEmpty rest

/-- Go `sanitize` (from `pkg/providers`): trim, drop empties, and reject an
all-empty result with "provider returned no CIDRs". -/
def sanitize (cidrs : List String) : Except String (List String) :=
  let results := trimDropEmpty cidrs
  if results = [] then .error "provider returned no CIDRs" else .ok results

/-- Go `ExtractCIDRs` (from `api/v1alpha1`): `strings.FieldsFunc` on
newline/comma/semicolon (which drops empty fields), then trim each field and
drop empties. -/
def extractCIDRs (payload : String) : List String :=
  let fields :=
    (splitCharsAux (fun c => c == '\n' || c == ',' || c == ';') payload.data []).filter
      (fun s => s ≠ "")
  trimDropEmpty fields

/-- Go field access `item["service"].(string)` with a discarded `ok`: the
empty string when the key is absent or the value is not a string. -/
def strField (item : List (String × Json)) (key : String) : String :=
  match jsonLookup item key with
  | some (.str s) => s
  | _ => ""

/-- The per-record filter of `awsSelectorWithFilter`: each non-empty
allow-list is normalised (trim plus case folding, upper case for service,
lower case for region and network border group) and the record's field must
be a member; an empty list disables that filter. -/
def awsItemPass (services regions nbgs : List String) (item : List (String × Json)) : Bool :=
  (services.isEmpty ||
    (services.map fun s => goUpper (goTrim s)).contains (goUpper (goTrim (strField item "service")))) &&
  (regions.isEmpty ||
    (regions.map fun s => goLower (goTrim s)).contains (goLower (goTrim (strField item "region")))) &&
  (nbgs.isEmpty ||
    (nbgs.map fun s => goLower (goTrim s)).contains (goLower (goTrim (strField item "network_border_group"))))

/-- The extraction loop of `awsSelectorWithFilter`: non-object elements are
skipped, filtered-out records are skipped, and a surviving record contributes
its trimmed `ip_prefix` string when non-empty. -/
def awsCollect (services regions nbgs : List String) : List Json → List String
  | [] => []
  | item :: rest =>
    match item with
    | .obj fields =>
      if awsItemPass services regions nbgs fields then
        (match jsonLookup fields "ip_prefix" with
         | some (.str cidr) =>
           let value := goTrim cidr
           if value = "" then awsCollect services regions nbgs rest
           else value :: awsCollect services regions nbgs rest
         | _ => awsCollect services regions nbgs rest)
      else awsCollect services regions nbgs rest
    | _ => awsCollect services regions nbgs rest

/-- Go `awsSelectorWithFilter` (from `pkg/providers/static.go`): requires a
top-level `prefixes` array, then applies the three AND-combined allow-list
filters and extracts `ip_prefix`. -/
def awsSelectorWithFilter (data : List (String × Json)) (services regions nbgs : List String) :
    Except String (List String) :=
  match jsonLookup data "prefixes" with
  | some (.arr prefixesRaw) => .ok (awsCollect services regions nbgs prefixesRaw)
  | _ => .error "missing prefixes"

/-- Go `awsSelector`: the default allow-lists, services AMAZON and
AMAZON_CONNECT, regions GLOBAL and us-east-1, network border group
unfiltered. -/
def awsSelector (data : List (String × Json)) : Except String (List String) :=
  awsSelectorWithFilter data ["AMAZON", "AMAZON_CONNECT"] ["GLOBAL", "us-east-1"] []

/-- The per-role extraction loop of `githubSelectorWithRoles`: look up the
lower-cased trimmed role key; a key that is absent or not an array is
silently skipped; string elements are trimmed and kept when non-empty. -/
def githubCollect (data : List (String × Json)) : List String → List String
  | [] => []
  | role :: rest =>
    let roleKey := goLower (goTrim role)
    (match jsonLookup data roleKey with
     | some (.arr roleData) =>
       roleData.filterMap fun item =>
         match item with
         | .str cidr =>
           let value := goTrim cidr
           if value = "" then none else some value
         | _ => none
     | _ => []) ++ githubCollect data rest

/-- Go `%v` rendering of the roles slice used in the github error message. -/
def fmtRoles (roles : List String) : String :=
  "[" ++ String.intercalate " " roles ++ "]"

/-- Go `githubSelectorWithRoles`: default the role list to `hooks` when
empty, collect per role, and fail when zero elements were extracted. -/
def githubSelectorWithRoles (data : List (String × Json)) (roles : List String) :
    Except String (List String) :=
  let roles := if roles = [] then ["hooks"] else roles
  let results := githubCollect data roles
  if results = [] then .error ("no CIDRs found for roles: " ++ fmtRoles roles)
  else .ok results

/-- Whether the first character list occurs contiguously in the second. -/
def containsChars (pat : List Char) : List Char → Bool
  | [] => pat.isEmpty
  | c :: rest => pat.isPrefixOf (c :: rest) || containsChars pat rest

/-- Model of Go `strings.Contains`. -/
def strContains (s pat : String) : Bool := containsChars pat.data s.data

/-- Go `githubSelector`: run the default single-role extraction, but convert
the "no CIDRs found" error into an empty success when the document holds
`hooks` as a legitimately empty array. -/
def githubSelector (data : List (String × Json)) : Except String (List String) :=
  let emptyHooksArray :=
    match jsonLookup data "hooks" with
    | some (.arr a) => a.isEmpty
    | _ => false
  match githubSelectorWithRoles data [] with
  | .ok results => .ok results
  | .error e =>
    if emptyHooksArray && strContains e "no CIDRs found" then .ok []
    else .error e

/-- The post-decode part of `staticHTTPProvider.Fetch`: apply the selector to
the decoded payload, then sanitize. Transport, status and JSON-decode
failures happen before this point and are all errors. -/
def staticFetchAfterDecode (selector : List (String × Json) → Except String (List String))
    (payload : List (String × Json)) : Except String (List String) :=
  match selector payload with
  | .error e => .error e
  | .ok cidrs => sanitize cidrs

/-- One field/allow-list condition of the jsonEndpoint filter. -/
structure FieldCondition where
  field : String
  values : List String
deriving DecidableEq

/-- The jsonEndpoint filter: a conjunction of field conditions. -/
structure JsonFilter where
  fieldConditions : List FieldCondition
deriving DecidableEq

/-- Go `matchesFilter`: every condition's field must exist and be a string;
with no listed values mere presence suffices, otherwise the trimmed field
must equal one of the trimmed allowed values case-insensitively. -/
def matchesFilter (obj : List (String × Json)) (filter : JsonFilter) : Bool :=
  filter.fieldConditions.all fun condition =>
    match jsonLookup obj condition.field with
    | some (.str fieldStr) =>
      condition.values.isEmpty ||
        condition.values.any fun allowed => eqFold (goTrim fieldStr) (goTrim allowed)
    | _ => false

/-- Go `extractCIDRFromObject`: probe the fixed priority list of common CIDR
field names and return the first trimmed non-empty string hit, else "". -/
def extractCIDRFromObject (obj : List (String × Json)) : String :=
  probeFields obj ["ip_prefix", "ipv4Prefix", "ipv6Prefix", "cidr", "ipPrefix", "ip"]
where
  probeFields (obj : List (String × Json)) : List String → String
    | [] => ""
    | field :: rest =>
      match jsonLookup obj field with
      | some (.str value) =>
        let trimmed := goTrim value
        if trimmed = "" then probeFields obj rest else trimmed
      | _ => probeFields obj rest

/-- The array loop of `interpretCIDRs`: strings pass through unchanged,
objects are filtered (when a filter is configured) and probed for a CIDR,
anything else aborts with a hard error. The Go message interpolates the
offending value with `%v`; the model keeps the fixed text. -/
def interpretList (filter : Option JsonFilter) : List Json → Except String (List String)
  | [] => .ok []
  | item :: rest =>
    match item with
    | .str s => (interpretList filter rest).map fun r => s :: r
    | .obj obj =>
      match filter with
      | some f =>
        if matchesFilter obj f then
          let cidr := extractCIDRFromObject obj
          (interpretList filter rest).map fun r => if cidr = "" then r else cidr :: r
        else interpretList filter rest
      | none =>
        let cidr := extractCIDRFromObject obj
        (interpretList filter rest).map fun r => if cidr = "" then r else cidr :: r
    | _ => .error "array value is neither a string nor an object"

/-- Go `interpretCIDRs`: a JSON array is interpreted element-wise, a bare
string is a single-element result, any other type is a hard error. The Go
message interpolates the Go type with `%T`; the model keeps the fixed text. -/
def interpretCIDRs (value : Json) (filter : Option JsonFilter) : Except String (List String) :=
  match value with
  | .arr v => interpretList filter v
  | .str s => .ok [s]
  | _ => .error "unsupported JSON field type"

/-- The post-decode part of `jsonEndpointProvider.Fetch`: navigate the field
path, interpret the value, sanitize. Header resolution, transport, status
and decode failures happen before this point and are all errors. -/
def jsonEndpointAfterDecode (fieldPath : String) (filter : Option JsonFilter)
    (payload : Json) : Except String (List String) :=
  match navigateField payload fieldPath with
  | .error e => .error e
  | .ok value =>
    match interpretCIDRs value filter with
    | .error e => .error e
    | .ok cidrs => sanitize cidrs

/-- Modelled from the spec: `configMapProvider.Fetch` is not under `src/`
(only its tests and its helpers `ExtractCIDRs` and the
"configmap missing key" message are); per section 4.3 it looks up the named
ConfigMap, reads one key, splits on newline/comma/semicolon via
`ExtractCIDRs`, and fails if the object is missing, the key is absent, or
sanitization yields nothing. The ConfigMap is `some data` when it exists. -/
def configMapFetchModel (cm : Option (List (String × String))) (key : String) :
    Except String (List String) :=
  match cm with
  | none => .error "configmap not found"
  | some data =>
    match data.lookup key with
    | none => .error ("configmap missing key: " ++ key)
    | some value => sanitize (extractCIDRs value)

/-- `ConfigMapProviderSpec` from `api/v1alpha1`: empty namespace means
"default to the resource's namespace" in the factory. -/
structure ConfigMapProviderSpec where
  name : String
  namespace' : String
  key : String
deriving DecidableEq

/-- `corev1.SecretKeySelector` restricted to the fields the code reads. -/
structure SecretKeySelector where
  name : String
  key : String
deriving DecidableEq

/-- `HTTPHeaderSecretRef` from `api/v1alpha1`. -/
structure HTTPHeaderSecretRef where
  name : String
  secretKeyRef : SecretKeySelector
deriving DecidableEq

/-- `JSONEndpointProviderSpec` from `api/v1alpha1`. -/
structure JSONEndpointProviderSpec where
  url : String
  fieldPath : String
  headers : List (String × String)
  headerSecretRefs : List HTTPHeaderSecretRef
deriving DecidableEq

/-- `ProviderSpec` from `api/v1alpha1`: the case-insensitive discriminator
`name` plus the optional configMap / jsonEndpoint blocks. -/
structure ProviderSpec where
  name : String
  configMap : Option ConfigMapProviderSpec
  jsonEndpoint : Option JSONEndpointProviderSpec
deriving DecidableEq

/-- The headerSecretRefs loop of `ProviderSpec.Validate`. -/
def validateHeaderRefs : List HTTPHeaderSecretRef → Except String Unit
  | [] => .ok ()
  | r :: rest =>
    if goTrim r.name = "" then .error "jsonEndpoint headerSecretRefs requires name"
    else if r.secretKeyRef.name = "" ∨ r.secretKeyRef.key = "" then
      .error "jsonEndpoint headerSecretRefs requires secret name and key"
    else validateHeaderRefs rest

/-- Go `ProviderSpec.Validate` (from `api/v1alpha1/botnetworkpolicy_types.go`):
switch on the lower-cased name; google/aws/github validate unconditionally,
configmap and jsonendpoint require their block with its mandatory fields,
anything else is "unsupported provider". -/
def providerValidate (p : ProviderSpec) : Except String Unit :=
  let n := goLower p.name
  if n = "google" ∨ n = "aws" ∨ n = "github" then .ok ()
  else if n = "configmap" then
    match p.configMap with
    | none => .error "configMap provider requires configMap configuration"
    | some c =>
      if c.name = "" ∨ c.key = "" then .error "configMap provider requires name and key"
      else .ok ()
  else if n = "jsonendpoint" then
    match p.jsonEndpoint with
    | none => .error "jsonEndpoint provider requires jsonEndpoint configuration"
    | some j =>
      if j.url = "" ∨ j.fieldPath = "" then .error "jsonEndpoint provider requires url and fieldPath"
      else validateHeaderRefs j.headerSecretRefs
  else .error ("unsupported provider: " ++ p.name)

/-- A `metav1.LabelSelectorRequirement` restricted to the compared fields. -/
structure MatchExpr where
  key : String
  op : String
  values : List String
deriving DecidableEq

/-- A `metav1.LabelSelector`: the match-labels map (association list with
unique keys, as deserialised) and the expression list. -/
structure LabelSelector where
  matchLabels : List (String × String)
  matchExpressions : List MatchExpr
deriving DecidableEq

/-- `BotNetworkPolicySpec` restricted to the fields the reconciler reads.
`syncPeriod` is in nanoseconds, `0` meaning unset. Policy types are the
underlying strings of `networkingv1.PolicyType`. -/
structure BotSpec where
  podSelector : Option LabelSelector
  policyTypes : List String
  ingress : Option Bool
  egress : Option Bool
  providers : List ProviderSpec
  customCIDRs : List String
  syncPeriod : Nat
deriving DecidableEq

/-- A `BotNetworkPolicy` resource: object metadata the code reads plus spec. -/
structure BotNetworkPolicy where
  name : String
  namespace' : String
  uid : String
  annots : List (String × String)
  spec : BotSpec
deriving DecidableEq

/-- Go `BotNetworkPolicy.Validate`: the first failing provider declaration
fails the whole resource. -/
def botValidate : List ProviderSpec → Except String Unit
  | [] => .ok ()
  | p :: rest =>
    match providerValidate p with
    | .error e => .error e
    | .ok _ => botValidate rest

/-- Go map lookup with the zero value `""` for a missing key, as in
`b.Annotations[key]` and `b.MatchLabels[k]`. -/
def mapGetD (m : List (String × String)) (key : String) : String :=
  match m.lookup key with
  | some v => v
  | none => ""

/-- Go `BotNetworkPolicy.NetworkPolicyName`: the trimmed
`bot.networking.dev/networkpolicy-name` annotation when non-empty, else
`<name>-allow-bots`. -/
def networkPolicyName (b : BotNetworkPolicy) : String :=
  let fromAnn := goTrim (mapGetD b.annots "bot.networking.dev/networkpolicy-name")
  if fromAnn ≠ "" then fromAnn else b.name ++ "-allow-bots"

/-- Insert a string into a sorted duplicate-free list, keeping it sorted and
duplicate-free: the model of `sets.String` / `sets.Set` insertion combined
with the sorted `List()` view. -/
def setInsert (x : String) : List String → List String
  | [] => [x]
  | y :: ys => if strLt x y then x :: y :: ys else if x = y then y :: ys else y :: setInsert x ys

/-- Sorted-insert keeping duplicates: the model of `sort.Slice` /
`sort.Strings` (the comparison result is the sorted permutation). -/
def sortInsert (x : String) : List String → List String
  | [] => [x]
  | y :: ys => if strLt y x then y :: sortInsert x ys else x :: y :: ys

/-- Sort a string list lexicographically (byte-wise in Go, scalar-wise here;
they agree on ASCII). -/
def sortStrings (l : List String) : List String := l.foldr sortInsert []

/-- Go `determinePolicyTypes` (from the controller): an explicitly requested
non-empty list is returned verbatim; otherwise ingress is enabled unless the
flag is explicitly false and egress only when explicitly true, with ingress
forced when the derived set would be empty; `sets.List` returns the set
sorted. -/
def determinePolicyTypes (requested : List String) (ingress egress : Option Bool) :
    List String :=
  if requested.length > 0 then requested
  else
    let enabled : List String := []
    let enabled := if ingress = none ∨ ingress = some true then setInsert "Ingress" enabled else enabled
    let enabled := if egress = some true then setInsert "Egress" enabled else enabled
    let enabled := if enabled.length = 0 then setInsert "Ingress" enabled else enabled
    enabled

/-- The outcome the environment supplies for one provider declaration:
either the factory failed, or the built provider's `Fetch` failed, or it
fetched a raw CIDR list. -/
inductive ProviderOutcome where
  | factoryErr : String → ProviderOutcome
  | fetchErr : String → ProviderOutcome
  | fetched : List String → ProviderOutcome
deriving DecidableEq

/-- The provider loop of `collectCIDRs`: factory and fetch failures become
warnings and skip the provider; fetched CIDRs are trimmed and inserted into
the set, skipping entries that trim to empty. -/
def collectLoop : List (String × ProviderOutcome) → List String × List String
  | [] => ([], [])
  | (name, outcome) :: rest =>
    let (set, warnings) := collectLoop rest
    match outcome with
    | .factoryErr e => (set, ("provider " ++ name ++ " skipped: " ++ e) :: warnings)
    | .fetchErr e => (set, ("provider " ++ name ++ " fetch error: " ++ e) :: warnings)
    | .fetched cidrs =>
      (cidrs.foldl (fun s cidr =>
        let normalized := goTrim cidr
        if normalized = "" then s else setInsert normalized s) set, warnings)

/-- Go `collectCIDRs` (from the controller), with each provider's combined
factory/fetch outcome supplied by the environment: merge the surviving
provider CIDRs and the resource's literal `CustomCIDRs` (trimmed, with no
empty check on the literal entries) into the sorted deduplicated set, plus
one warning per skipped provider. The trailing `sort.Strings` is a no-op on
the already sorted `sets.String.List()` view. -/
def collectCIDRs (outcomes : List (String × ProviderOutcome)) (custom : List String) :
    List String × List String :=
  let (set, warnings) := collectLoop outcomes
  (custom.foldl (fun s cidr => setInsert (goTrim cidr) s) set, warnings)

/-- An `IPBlock` peer entry: CIDR plus exception list. -/
structure IPBlock where
  cidr : String
  except' : List String
deriving DecidableEq

/-- A `NetworkPolicyPeer` restricted to the fields the code writes and
compares. -/
structure Peer where
  ipBlock : Option IPBlock
deriving DecidableEq

/-- A `NetworkPolicyIngressRule`: its `From` peer list. -/
structure IngressRule where
  from' : List Peer
deriving DecidableEq

/-- A `NetworkPolicyEgressRule`: its `To` peer list. -/
structure EgressRule where
  to' : List Peer
deriving DecidableEq

/-- `networkingv1.NetworkPolicySpec` restricted to the compared fields. -/
structure NetworkPolicySpec where
  podSelector : LabelSelector
  policyTypes : List String
  ingress : List IngressRule
  egress : List EgressRule
deriving DecidableEq

/-- A `metav1.OwnerReference` restricted to what `IsControlledBy` reads. -/
structure OwnerRef where
  uid : String
  controller : Bool
deriving DecidableEq

/-- A persisted `NetworkPolicy` object: metadata the code reads or writes
plus spec. -/
structure NetworkPolicy where
  name : String
  namespace' : String
  labels : List (String × String)
  annots : List (String × String)
  ownerRefs : List OwnerRef
  spec : NetworkPolicySpec
deriving DecidableEq

/-- Go `BotNetworkPolicySpec.IngressEnabled`: nil defaults to true. -/
def ingressEnabled (s : BotSpec) : Bool :=
  match s.ingress with
  | none => true
  | some b => b

/-- Go `BotNetworkPolicySpec.EgressEnabled`: nil defaults to false. -/
def egressEnabled (s : BotSpec) : Bool :=
  match s.egress with
  | none => false
  | some b => b

/-- Go `buildNetworkPolicy`: owner label, pod selector (empty-match when the
resource omits it), derived policy types, and per-direction peer lists built
from the CIDR set only when it is non-empty and the direction is enabled. -/
def buildNetworkPolicy (resource : BotNetworkPolicy) (cidrs : List String) : NetworkPolicy :=
  let labels := [("botnetworkpolicy.bot.networking.dev/owner", resource.name)]
  let podSelector :=
    match resource.spec.podSelector with
    | some sel => sel
    | none => ⟨[], []⟩
  let policyTypes := determinePolicyTypes resource.spec.policyTypes resource.spec.ingress resource.spec.egress
  let peers := cidrs.map fun cidr => Peer.mk (some ⟨cidr, []⟩)
  let ingressRules :=
    if cidrs.length > 0 ∧ ingressEnabled resource.spec = true then [IngressRule.mk peers] else []
  let egressRules :=
    if cidrs.length > 0 ∧ egressEnabled resource.spec = true then [EgressRule.mk peers] else []
  { name := networkPolicyName resource
    namespace' := resource.namespace'
    labels := labels
    annots := []
    ownerRefs := []
    spec := ⟨podSelector, policyTypes, ingressRules, egressRules⟩ }

/-- Go `equalStringSlices`. -/
def equalStringSlices (a b : List String) : Bool := a == b

/-- Go `selectorsEqual`: match-labels maps agree (size plus every key of one
looked up in the other, missing keys reading as "") and the expression lists
agree element-wise in order. -/
def selectorsEqual (a b : LabelSelector) : Bool :=
  a.matchLabels.length == b.matchLabels.length &&
  a.matchLabels.all (fun kv => mapGetD b.matchLabels kv.1 == kv.2) &&
  a.matchExpressions.length == b.matchExpressions.length &&
  (a.matchExpressions.zip b.matchExpressions).all fun p =>
    p.1.key == p.2.key && p.1.op == p.2.op && equalStringSlices p.1.values p.2.values

/-- Go `networkPolicyPeersEqual`: same length, and position-wise the
`IPBlock` presence, CIDR and exception list agree. -/
def networkPolicyPeersEqual (a b : List Peer) : Bool :=
  a.length == b.length &&
  (a.zip b).all fun p =>
    match p.1.ipBlock, p.2.ipBlock with
    | none, none => true
    | some x, some y => x.cidr == y.cidr && equalStringSlices x.except' y.except'
    | _, _ => false

/-- Go `networkPolicyIngressEqual`: rule-by-rule comparison of `From`. -/
def networkPolicyIngressEqual (a b : List IngressRule) : Bool :=
  a.length == b.length &&
  (a.zip b).all fun p => networkPolicyPeersEqual p.1.from' p.2.from'

/-- Go `networkPolicyEgressEqual`: rule-by-rule comparison of `To`. -/
def networkPolicyEgressEqual (a b : List EgressRule) : Bool :=
  a.length == b.length &&
  (a.zip b).all fun p => networkPolicyPeersEqual p.1.to' p.2.to'

/-- Go `networkPoliciesEqual`: policy types compared as sorted lists after a
length check, then ingress, egress and pod selector; only the specs are
examined, never labels or annotations. -/
def networkPoliciesEqual (existing desired : NetworkPolicy) : Bool :=
  existing.spec.policyTypes.length == desired.spec.policyTypes.length &&
  sortStrings existing.spec.policyTypes == sortStrings desired.spec.policyTypes &&
  networkPolicyIngressEqual existing.spec.ingress desired.spec.ingress &&
  networkPolicyEgressEqual existing.spec.egress desired.spec.egress &&
  selectorsEqual existing.spec.podSelector desired.spec.podSelector

/-- Go `metav1.GetControllerOf`: the first owner reference flagged as
controller. -/
def getControllerOf (refs : List OwnerRef) : Option OwnerRef :=
  refs.find? fun r => r.controller

/-- Go `metav1.IsControlledBy`: the controller owner reference exists and
carries the owner's UID. -/
def isControlledBy (np : NetworkPolicy) (res : BotNetworkPolicy) : Bool :=
  match getControllerOf np.ownerRefs with
  | some ref => ref.uid == res.uid
  | none => false

/-- Go `controllerutil.SetControllerReference` on a freshly built object
(which has no owner references, so the call cannot fail): record the
resource as controller owner. -/
def setControllerRef (res : BotNetworkPolicy) (np : NetworkPolicy) : NetworkPolicy :=
  { np with ownerRefs := [⟨res.uid, true⟩] }

/-- A cluster write issued by the reconciler. -/
inductive WriteAction where
  | create : NetworkPolicy → WriteAction
  | update : NetworkPolicy → WriteAction
deriving DecidableEq

/-- The observable outcome of `ensureNetworkPolicy`: at most one write, and
the returned error if any. -/
structure EnsureOutcome where
  write : Option WriteAction
  err : Option String
deriving DecidableEq

/-- Go `ensureNetworkPolicy`, with the `Get` of the derived name supplied by
the environment (`.error` a non-not-found read error, `.ok none` not found,
`.ok (some np)` found): create with controller reference when absent; when
present and controlled by the resource, skip when structurally equal else
update spec, labels and annotations; when present but not controlled, fail
without writing. -/
def ensureNetworkPolicy (resource : BotNetworkPolicy) (cidrs : List String)
    (lookupResult : Except String (Option NetworkPolicy)) : EnsureOutcome :=
  let desired := buildNetworkPolicy resource cidrs
  match lookupResult with
  | .error e => ⟨none, some e⟩
  | .ok none => ⟨some (.create (setControllerRef resource desired)), none⟩
  | .ok (some existing) =>
    if isControlledBy existing resource then
      if networkPoliciesEqual existing desired then ⟨none, none⟩
      else
        ⟨some (.update { existing with
          spec := desired.spec, labels := desired.labels, annots := desired.annots }), none⟩
    else
      ⟨none, some ("networkpolicy " ++ desired.namespace' ++ "/" ++ desired.name ++
        " exists and is not controlled by BotNetworkPolicy")⟩

/-- A recorded Kubernetes event: type, reason, message. -/
structure Event where
  etype : String
  reason : String
  message : String
deriving DecidableEq

/-- The environment of one reconcile invocation: each provider declaration's
combined factory/fetch outcome and the result of reading the existing
NetworkPolicy by derived name. -/
structure ReconcileEnv where
  outcome : ProviderSpec → ProviderOutcome
  lookupNP : Except String (Option NetworkPolicy)

/-- The observable result of one reconcile invocation. -/
structure ReconcileOutput where
  events : List Event
  write : Option WriteAction
  err : Option String
  requeueAfter : Option Nat
deriving DecidableEq

/-- `providers.DefaultSyncPeriod` = one hour, in nanoseconds. -/
def defaultSyncPeriod : Nat := 3600000000000

/-- Whether a JSON value is an object. -/
def Json.isObj : Json → Bool
  | .obj _ => true
  | _ => false

/-- Drop the empty strings from a segment list (spec-side helper used to
state that navigation ignores empty path segments). -/
def removeEmptyStrs : List String → List String
  | [] => []
  | s :: rest => if s = "" then removeEmptyStrs rest else s :: removeEmptyStrs rest

/-- Spec-side characterisation of what one array element contributes under
the aws selector when every filter is disabled: objects yield their trimmed
non-empty `ip_prefix`, everything else yields nothing. -/
def awsNoFilterExtract : Json → Option String
  | .obj fields =>
    (match jsonLookup fields "ip_prefix" with
     | some (.str cidr) =>
       let value := goTrim cidr
       if value = "" then none else some value
     | _ => none)
  | _ => none

/-- The aws filter parameters of one provider declaration (the `AWS` block
read by `Factory.FromSpec`; `none` models a declaration with no block). -/
structure AWSProviderConfig where
  url : String
  services : List String
  regions : List String
  networkBorderGroups : List String

/-- The selector closure the factory's aws case binds (from
`Factory.FromSpec`): the declaration's filter lists when the AWS block is
present, empty lists — meaning no filtering at all — when it is absent. -/
def awsSelectorFromSpec (cfg : Option AWSProviderConfig) (data : List (String × Json)) :
    Except String (List String) :=
  match cfg with
  | some c => awsSelectorWithFilter data c.services c.regions c.networkBorderGroups
  | none => awsSelectorWithFilter data [] [] []

/-- Go `Reconcile` for a resource that exists (a not-found read is a clean
no-op upstream of this): validation failure records one warning event and
stops with neither write, error, nor requeue; otherwise CIDRs are collected
(per-provider failures becoming warning events), the policy ensured, and on
success a requeue after the resource's sync period (default one hour) is
requested. -/
def reconcile (resource : BotNetworkPolicy) (env : ReconcileEnv) : ReconcileOutput :=
  match botValidate resource.spec.providers with
  | .error e => ⟨[⟨"Warning", "InvalidSpec", e⟩], none, none, none⟩
  | .ok _ =>
    let collected := collectCIDRs
      (resource.spec.providers.map fun p => (p.name, env.outcome p))
      resource.spec.customCIDRs
    let warnEvents := collected.2.map fun w => Event.mk "Warning" "ProviderWarning" w
    let ensured := ensureNetworkPolicy resource collected.1 env.lookupNP
    match ensured.err with
    | some e => ⟨warnEvents, ensured.write, some e, none⟩
    | none =>
      let syncAfter := if resource.spec.syncPeriod = 0 then defaultSyncPeriod else resource.spec.syncPeriod
      ⟨warnEvents, ensured.write, none, some syncAfter⟩

/-- Navigation ignores empty path segments: walking a segment list is the
same as walking it with the empty segments removed. -/
theorem navigateSegs_skip_empty (input : Json) (segs : List String) :
    navigateSegs input segs = navigateSegs input (removeEmptyStrs segs) := by
  induction segs generalizing input with
  | nil => rfl
  | cons seg rest ih =>
    by_cases h : seg = ""
    · subst h
      simp [navigateSegs, removeEmptyStrs, ih]
    · simp only [removeEmptyStrs, if_neg h]
      cases input with
      | obj fields =>
        simp only [navigateSegs, if_neg h]
        cases jsonLookup fields seg with
        | some next => exact ih next
        | none => rfl
      | null => simp [navigateSegs, h]
      | bool b => simp [navigateSegs, h]
      | num n => simp [navigateSegs, h]
      | str s => simp [navigateSegs, h]
      | arr a => simp [navigateSegs, h]

/-- A non-empty segment against a non-object current value is a
"not an object" error. -/
theorem navigateSegs_notObj (current : Json) (seg : String) (rest : List String)
    (h1 : seg ≠ "") (h2 : current.isObj = false) :
    navigateSegs current (seg :: rest) = .error ("segment \"" ++ seg ++ "\" not an object") := by
  cases current with
  | obj fields => simp [Json.isObj] at h2
  | null => simp [navigateSegs, h1]
  | bool b => simp [navigateSegs, h1]
  | num n => simp [navigateSegs, h1]
  | str s => simp [navigateSegs, h1]
  | arr a => simp [navigateSegs, h1]

/-- A non-empty segment absent from the current object is a
"missing segment" error. -/
theorem navigateSegs_missing (fields : List (String × Json)) (seg : String) (rest : List String)
    (h1 : seg ≠ "") (h2 : jsonLookup fields seg = none) :
    navigateSegs (.obj fields) (seg :: rest) = .error ("missing segment \"" ++ seg ++ "\"") := by
  simp [navigateSegs, h1, h2]

/-- The trim-and-drop loop is map `goTrim` followed by dropping empties. -/
theorem trimDropEmpty_eq (l : List String) :
    trimDropEmpty l = (l.map goTrim).filter (fun s => s ≠ "") := by
  induction l with
  | nil => rfl
  | cons c rest ih =>
    by_cases h : goTrim c = ""
    · simp [trimDropEmpty, h, ih]
    · simp [trimDropEmpty, h, ih]

/-- A successful `sanitize` returns exactly the trimmed survivors, and never
the empty list. -/
theorem sanitize_ok (l r : List String) (h : sanitize l = .ok r) :
    r = trimDropEmpty l ∧ r ≠ [] := by
  unfold sanitize at h
  by_cases he : trimDropEmpty l = []
  · simp [he] at h
  · simp [he] at h
    exact ⟨h.symm, fun hr => he (h.trans hr)⟩

/-- When every input token trims to empty, nothing survives the loop. -/
theorem trimDropEmpty_all_empty (l : List String) (h : ∀ s ∈ l, goTrim s = "") :
    trimDropEmpty l = [] := by
  induction l with
  | nil => rfl
  | cons c rest ih =>
    have hc := h c (List.mem_cons_self c rest)
    simp only [trimDropEmpty, hc, if_pos rfl]
    exact ih fun s hs => h s (List.mem_cons_of_mem c hs)

/-- With all three filters empty the aws extraction loop keeps every record,
extracting the trimmed `ip_prefix` of each object element. -/
theorem awsCollect_nofilter (l : List Json) :
    awsCollect [] [] [] l = l.filterMap awsNoFilterExtract := by
  induction l with
  | nil => rfl
  | cons item rest ih =>
    cases item with
    | obj fields =>
      show awsCollect [] [] [] (Json.obj fields :: rest) = _
      simp only [awsCollect, List.filterMap_cons, awsNoFilterExtract]
      have hpass : awsItemPass [] [] [] fields = true := rfl
      rw [if_pos hpass]
      cases h : jsonLookup fields "ip_prefix" with
      | none => simp [h, ih]
      | some v =>
        cases v with
        | str cidr =>
          by_cases hv : goTrim cidr = ""
          · simp [h, hv, ih]
          · simp [h, hv, ih]
        | null => simp [h, ih]
        | bool b => simp [h, ih]
        | num n => simp [h, ih]
        | arr a => simp [h, ih]
        | obj o => simp [h, ih]
    | null => simp [awsCollect, List.filterMap_cons, awsNoFilterExtract, ih]
    | bool b => simp [awsCollect, List.filterMap_cons, awsNoFilterExtract, ih]
    | num n => simp [awsCollect, List.filterMap_cons, awsNoFilterExtract, ih]
    | str s => simp [awsCollect, List.filterMap_cons, awsNoFilterExtract, ih]
    | arr a => simp [awsCollect, List.filterMap_cons, awsNoFilterExtract, ih]

/-- A successful `githubSelectorWithRoles` never returns the empty list. -/
theorem githubSelectorWithRoles_ok (data : List (String × Json)) (roles : List String)
    (r : List String) (h : githubSelectorWithRoles data roles = .ok r) : r ≠ [] := by
  unfold githubSelectorWithRoles at h
  by_cases he : githubCollect data (if roles = [] then ["hooks"] else roles) = []
  · simp [he] at h
  · simp [he] at h
    exact fun hr => he (h ▸ hr)

/-- The headerSecretRefs loop validates exactly when every entry has a
non-blank header name and a named secret key. -/
theorem validateHeaderRefs_ok_iff (l : List HTTPHeaderSecretRef) :
    validateHeaderRefs l = .ok () ↔
      ∀ r ∈ l, goTrim r.name ≠ "" ∧ r.secretKeyRef.name ≠ "" ∧ r.secretKeyRef.key ≠ "" := by
  induction l with
  | nil => simp [validateHeaderRefs]
  | cons r rest ih =>
    by_cases h1 : goTrim r.name = ""
    · simp [validateHeaderRefs, h1]
    · by_cases h2 : r.secretKeyRef.name = "" ∨ r.secretKeyRef.key = ""
      · simp [validateHeaderRefs, h1, h2]
        intro hn hk
        cases h2 with
        | inl h => exact absurd h hn
        | inr h => exact absurd h hk
      · push_neg at h2
        simp [validateHeaderRefs, h1, h2, ih]

/-- Characterisation of `ProviderSpec.Validate`: it accepts exactly the
known discriminators with their own block requirements, and never looks at
the blocks of non-matching variants. -/
theorem providerValidate_ok_iff (p : ProviderSpec) :
    providerValidate p = .ok () ↔
      ((goLower p.name = "google" ∨ goLower p.name = "aws" ∨ goLower p.name = "github")
      ∨ (goLower p.name = "configmap" ∧ ∃ c, p.configMap = some c ∧ c.name ≠ "" ∧ c.key ≠ "")
      ∨ (goLower p.name = "jsonendpoint" ∧ ∃ j, p.jsonEndpoint = some j ∧ j.url ≠ "" ∧ j.fieldPath ≠ ""
          ∧ ∀ r ∈ j.headerSecretRefs, goTrim r.name ≠ "" ∧ r.secretKeyRef.name ≠ "" ∧ r.secretKeyRef.key ≠ "")) := by
  unfold providerValidate
  by_cases h1 : goLower p.name = "google" ∨ goLower p.name = "aws" ∨ goLower p.name = "github"
  · simp [h1]
  · rw [if_neg h1]
    by_cases h2 : goLower p.name = "configmap"
    · have h3 : ¬ goLower p.name = "jsonendpoint" := by rw [h2]; decide
      rw [if_pos h2]
      cases hc : p.configMap with
      | none => simp [h1, h2, h3, hc]
      | some c =>
        by_cases hck : c.name = "" ∨ c.key = ""
        · simp [h1, h2, h3, hc, hck]
          intro x
          cases hck with
          | inl h => exact absurd h x
          | inr h => exact h
        · push_neg at hck
          simp [h1, h2, h3, hc, hck]
    · rw [if_neg h2]
      by_cases h3 : goLower p.name = "jsonendpoint"
      · rw [if_pos h3]
        cases hj : p.jsonEndpoint with
        | none => simp [h1, h2, h3, hj]
        | some j =>
          by_cases hjf : j.url = "" ∨ j.fieldPath = ""
          · simp [h1, h2, h3, hj, hjf]
            intro hu hf
            cases hjf with
            | inl h => exact absurd h hu
            | inr h => exact absurd h hf
          · push_neg at hjf
            simp [h1, h2, h3, hj, hjf, validateHeaderRefs_ok_iff]
      · simp [h1, h2, h3]

/-- An existing NetworkPolicy not controlled by the resource makes
`ensureNetworkPolicy` fail without writing. -/
theorem ensureNotControlled (resource : BotNetworkPolicy) (cidrs : List String)
    (np : NetworkPolicy) (h : isControlledBy np resource = false) :
    ensureNetworkPolicy resource cidrs (.ok (some np)) =
      ⟨none, some ("networkpolicy " ++ resource.namespace' ++ "/" ++ networkPolicyName resource ++
        " exists and is not controlled by BotNetworkPolicy")⟩ := by
  simp [ensureNetworkPolicy, h, buildNetworkPolicy, networkPolicyName]

/-- An existing NetworkPolicy controlled by the resource and structurally
equal to the desired one makes `ensureNetworkPolicy` a pure no-op. -/
theorem ensureNoopWhenEqual (resource : BotNetworkPolicy) (cidrs : List String)
    (np : NetworkPolicy) (h1 : isControlledBy np resource = true)
    (h2 : networkPoliciesEqual np (buildNetworkPolicy resource cidrs) = true) :
    ensureNetworkPolicy resource cidrs (.ok (some np)) = ⟨none, none⟩ := by
  simp [ensureNetworkPolicy, h1, h2]

/-- C1: contrary to the merged-set invariant, a whitespace-only literal
CustomCIDRs entry is trimmed to the empty string and inserted into the
merged set without the empty check the provider path applies: the collection
step returns a set containing "". The second conjunct shows the provider
path does skip the identical whitespace-only entry. -/
theorem claim1_collect_empty_custom_bug :
    (collectCIDRs [] ["  "]).1 = [""]
    ∧ collectCIDRs [("p", ProviderOutcome.fetched ["  "])] [] = ([], []) :=
  ⟨rfl, rfl⟩

/-- C2: policy-type derivation — an explicit non-empty list is returned
verbatim; no list and no flags gives ingress only; egress-only flag with
ingress unset gives both directions; an explicitly disabled ingress with no
enabled egress is forced back to ingress; and over all flag combinations
egress appears exactly when explicitly enabled while ingress is dropped only
when explicitly disabled and egress is explicitly enabled. An explicit empty
list takes the flag-derivation path by the same equations. -/
theorem claim2_determinePolicyTypes :
    (∀ (requested : List String) (ing eg : Option Bool), requested ≠ [] →
      determinePolicyTypes requested ing eg = requested)
    ∧ determinePolicyTypes [] none none = ["Ingress"]
    ∧ determinePolicyTypes [] none (some true) = ["Egress", "Ingress"]
    ∧ (∀ ing eg : Option Bool, ing = some false → eg ≠ some true →
        determinePolicyTypes [] ing eg = ["Ingress"])
    ∧ (∀ ing eg : Option Bool,
        ("Egress" ∈ determinePolicyTypes [] ing eg ↔ eg = some true)
        ∧ ("Ingress" ∈ determinePolicyTypes [] ing eg ↔ ¬(ing = some false ∧ eg = some true))) := by
  refine ⟨?_, by decide, by decide, ?_, by decide⟩
  · intro requested ing eg h
    cases requested with
    | nil => exact absurd rfl h
    | cons a as => simp [determinePolicyTypes]
  · intro ing eg h1 h2
    subst h1
    cases eg with
    | none => decide
    | some b =>
      cases b with
      | true => exact absurd rfl h2
      | false => decide

/-- C2 witness: the theorem applied at an explicit list and at both flags
explicitly false. -/
theorem claim2_witness :
    determinePolicyTypes ["Egress"] none none = ["Egress"]
    ∧ determinePolicyTypes [] (some false) (some false) = ["Ingress"] :=
  ⟨claim2_determinePolicyTypes.1 ["Egress"] none none (by decide),
   claim2_determinePolicyTypes.2.2.2.1 (some false) (some false) rfl (by decide)⟩

/-- C3: sanitize returns exactly the trimmed non-whitespace tokens in order
and errors when nothing survives; consequently the static, jsonEndpoint and
configMap fetch pipelines, which all end in sanitize, never return an empty
list with success. -/
theorem claim3_sanitize_providers :
    (∀ l r, sanitize l = .ok r → r = (l.map goTrim).filter (fun s => s ≠ "") ∧ r ≠ [])
    ∧ (∀ l, (∀ s ∈ l, goTrim s = "") → sanitize l = .error "provider returned no CIDRs")
    ∧ (∀ (sel : List (String × Json) → Except String (List String)) payload r,
        staticFetchAfterDecode sel payload = .ok r → r ≠ [])
    ∧ (∀ fieldPath filter payload r,
        jsonEndpointAfterDecode fieldPath filter payload = .ok r → r ≠ [])
    ∧ (∀ cm key r, configMapFetchModel cm key = .ok r → r ≠ []) := by
  refine ⟨?_, ?_, ?_, ?_, ?_⟩
  · intro l r h
    obtain ⟨h1, h2⟩ := sanitize_ok l r h
    exact ⟨h1.trans (trimDropEmpty_eq l), h2⟩
  · intro l h
    simp [sanitize, trimDropEmpty_all_empty l h]
  · intro sel payload r h
    unfold staticFetchAfterDecode at h
    cases hs : sel payload with
    | error e => rw [hs] at h; exact absurd h (by simp)
    | ok x => rw [hs] at h; exact (sanitize_ok x r h).2
  · intro fieldPath filter payload r h
    unfold jsonEndpointAfterDecode at h
    cases hn : navigateField payload fieldPath with
    | error e => rw [hn] at h; exact absurd h (by simp)
    | ok v =>
      rw [hn] at h
      dsimp only at h
      cases hi : interpretCIDRs v filter with
      | error e => rw [hi] at h; exact absurd h (by simp)
      | ok x => rw [hi] at h; exact (sanitize_ok x r h).2
  · intro cm key r h
    cases cm with
    | none => exact absurd h (by simp [configMapFetchModel])
    | some data =>
      unfold configMapFetchModel at h
      dsimp only at h
      cases hk : data.lookup key with
      | none => rw [hk] at h; exact absurd h (by simp)
      | some value => rw [hk] at h; exact (sanitize_ok _ r h).2

/-- C3 witness: the theorem applied to a mixed list with one valid token and
to an all-whitespace list. -/
theorem claim3_witness :
    ((["a"] : List String) = (["  a ", "", "  "].map goTrim).filter (fun s => s ≠ "")
      ∧ (["a"] : List String) ≠ [])
    ∧ sanitize ["  ", ""] = .error "provider returned no CIDRs" :=
  ⟨claim3_sanitize_providers.1 ["  a ", "", "  "] ["a"] rfl,
   claim3_sanitize_providers.2.1 ["  ", ""] (by decide)⟩

/-- C4: the default aws selector excludes a record with service EC2,
excludes an AMAZON record in region eu-west-1, and extracts the trimmed
`ip_prefix` of a record passing both default allow-lists case-insensitively
with any network border group; while the factory's selector for a
declaration with no AWS block applies zero filters, so every object record's
trimmed non-empty `ip_prefix` passes. -/
theorem claim4_aws_selector :
    awsSelector [("prefixes", Json.arr [Json.obj [("ip_prefix", Json.str "54.239.0.0/16"),
      ("service", Json.str "EC2"), ("region", Json.str "us-east-1")]])] = .ok []
    ∧ awsSelector [("prefixes", Json.arr [Json.obj [("ip_prefix", Json.str "13.248.0.0/16"),
        ("service", Json.str "AMAZON"), ("region", Json.str "eu-west-1")]])] = .ok []
    ∧ awsSelector [("prefixes", Json.arr [Json.obj [("ip_prefix", Json.str " 52.94.76.0/24 "),
        ("service", Json.str "amazon"), ("region", Json.str "Global"),
        ("network_border_group", Json.str "us-east-1-mia-1")]])] = .ok ["52.94.76.0/24"]
    ∧ (∀ prefixesRaw : List Json,
        awsSelectorFromSpec none [("prefixes", Json.arr prefixesRaw)] =
          .ok (prefixesRaw.filterMap awsNoFilterExtract)) := by
  refine ⟨rfl, rfl, rfl, ?_⟩
  intro prefixesRaw
  show Except.ok (awsCollect [] [] [] prefixesRaw) = _
  rw [awsCollect_nofilter]

/-- C5 counterexample: for the document in which `hooks` is a legitimately
empty array, the provider-level fetch pipeline errors (sanitize rejects the
empty set), and the selector the factory actually binds for github —
`githubSelectorWithRoles` with no roles — errors as well, so the provider
does not yield a transparent empty success. -/
theorem claim5_counterexample :
    staticFetchAfterDecode githubSelector [("hooks", Json.arr [])] =
      .error "provider returned no CIDRs"
    ∧ githubSelectorWithRoles [("hooks", Json.arr [])] [] =
        .error "no CIDRs found for roles: [hooks]" :=
  ⟨rfl, rfl⟩

/-- C5 amended: the transparent-empty leniency lives only in the standalone
`githubSelector` function, which does return an empty success for a
legitimately empty `hooks` array; missing role keys are silently skipped;
but the provider-level fetch sanitizes the result into an error and the
factory's github selector errors on zero elements, so at the provider level
zero extracted elements is always an error, for every role set including the
default one. -/
theorem claim5_github_leniency :
    githubSelector [("hooks", Json.arr [])] = .ok []
    ∧ githubSelectorWithRoles [("web", Json.arr [Json.str " 1.2.3.0/24 "])] ["hooks", "web"] =
        .ok ["1.2.3.0/24"]
    ∧ staticFetchAfterDecode githubSelector [("hooks", Json.arr [])] =
        .error "provider returned no CIDRs"
    ∧ githubSelectorWithRoles [("hooks", Json.arr [])] [] =
        .error "no CIDRs found for roles: [hooks]"
    ∧ (∀ data roles r, githubSelectorWithRoles data roles = .ok r → r ≠ []) :=
  ⟨rfl, rfl, rfl, rfl, githubSelectorWithRoles_ok⟩

/-- C5 witness: the theorem's last conjunct applied to a one-element hooks
document. -/
theorem claim5_witness : (["192.30.252.0/22"] : List String) ≠ [] :=
  claim5_github_leniency.2.2.2.2 [("hooks", Json.arr [Json.str "192.30.252.0/22"])] []
    ["192.30.252.0/22"] rfl

/-- C6: navigating "a.b.c" through three nested objects returns the leaf
value; empty segments are skipped; a non-empty segment against a non-object
fails with a "not an object" error; a non-empty segment absent from the
current object fails with a "missing segment" error; the empty path returns
the whole document unchanged. -/
theorem claim6_navigateField :
    (∀ X : Json,
      navigateField (.obj [("a", .obj [("b", .obj [("c", X)])])]) "a.b.c" = .ok X)
    ∧ (∀ (input : Json) (segs : List String),
        navigateSegs input segs = navigateSegs input (removeEmptyStrs segs))
    ∧ (∀ (current : Json) (seg : String) (rest : List String), seg ≠ "" →
        current.isObj = false →
        navigateSegs current (seg :: rest) = .error ("segment \"" ++ seg ++ "\" not an object"))
    ∧ (∀ (fields : List (String × Json)) (seg : String) (rest : List String), seg ≠ "" →
        jsonLookup fields seg = none →
        navigateSegs (.obj fields) (seg :: rest) = .error ("missing segment \"" ++ seg ++ "\""))
    ∧ (∀ input : Json, navigateField input "" = .ok input) :=
  ⟨fun _ => rfl, navigateSegs_skip_empty, navigateSegs_notObj, navigateSegs_missing,
   fun _ => rfl⟩

/-- C6 witness: the theorem applied to a concrete nested document, a
non-object current value, and a missing key. -/
theorem claim6_witness :
    navigateField (.obj [("a", .obj [("b", .obj [("c", Json.arr [Json.str "10.0.0.0/24"])])])])
        "a.b.c" = .ok (Json.arr [Json.str "10.0.0.0/24"])
    ∧ navigateSegs (Json.str "leaf") ["a"] = .error ("segment \"" ++ "a" ++ "\" not an object")
    ∧ navigateSegs (Json.obj [("a", Json.null)]) ["x"] =
        .error ("missing segment \"" ++ "x" ++ "\"") :=
  ⟨claim6_navigateField.1 (Json.arr [Json.str "10.0.0.0/24"]),
   claim6_navigateField.2.2.1 (Json.str "leaf") "a" [] (by decide) rfl,
   claim6_navigateField.2.2.2.1 [("a", Json.null)] "x" [] (by decide) rfl⟩

/-- C7: when shape validation of the provider declarations fails, the
reconcile invocation records exactly one warning-class InvalidSpec event,
issues no write, returns no error and requests no requeue. -/
theorem claim7_invalid_spec (resource : BotNetworkPolicy) (env : ReconcileEnv) (e : String)
    (h : botValidate resource.spec.providers = .error e) :
    reconcile resource env = ⟨[⟨"Warning", "InvalidSpec", e⟩], none, none, none⟩ := by
  unfold reconcile
  rw [h]

/-- C7 witness: the theorem applied to a resource with an unsupported
provider name. -/
theorem claim7_witness :
    reconcile ⟨"r", "default", "u", [], ⟨none, [], none, none, [⟨"bogus", none, none⟩], [], 0⟩⟩
        ⟨fun _ => .fetched [], .ok none⟩ =
      ⟨[⟨"Warning", "InvalidSpec", "unsupported provider: bogus"⟩], none, none, none⟩ :=
  claim7_invalid_spec _ _ _ rfl

/-- C8: an existing NetworkPolicy with the derived name that is not
controlled by this resource makes `ensureNetworkPolicy` return the ownership
error with no write, and the whole reconcile invocation then returns that
error with no write and no requeue. -/
theorem claim8_ownership_conflict :
    (∀ (resource : BotNetworkPolicy) (cidrs : List String) (np : NetworkPolicy),
      isControlledBy np resource = false →
      ensureNetworkPolicy resource cidrs (.ok (some np)) =
        ⟨none, some ("networkpolicy " ++ resource.namespace' ++ "/" ++ networkPolicyName resource ++
          " exists and is not controlled by BotNetworkPolicy")⟩)
    ∧ (∀ (resource : BotNetworkPolicy) (env : ReconcileEnv) (np : NetworkPolicy),
        botValidate resource.spec.providers = .ok () →
        env.lookupNP = .ok (some np) →
        isControlledBy np resource = false →
        (reconcile resource env).write = none
        ∧ (reconcile resource env).err =
            some ("networkpolicy " ++ resource.namespace' ++ "/" ++ networkPolicyName resource ++
              " exists and is not controlled by BotNetworkPolicy")
        ∧ (reconcile resource env).requeueAfter = none) := by
  refine ⟨ensureNotControlled, ?_⟩
  intro resource env np hv hl hc
  unfold reconcile
  rw [hv]
  simp only [hl, ensureNotControlled resource _ np hc]
  exact ⟨trivial, trivial, trivial⟩

/-- C8 witness: the theorem applied to a resource and an existing policy
owned by a different controller UID. -/
theorem claim8_witness :
    (reconcile ⟨"r", "default", "u", [], ⟨none, [], none, none, [], [], 0⟩⟩
        ⟨fun _ => .fetched [],
         .ok (some ⟨"r-allow-bots", "default", [], [], [⟨"other-uid", true⟩],
           ⟨⟨[], []⟩, [], [], []⟩⟩)⟩).write = none
    ∧ (reconcile ⟨"r", "default", "u", [], ⟨none, [], none, none, [], [], 0⟩⟩
        ⟨fun _ => .fetched [],
         .ok (some ⟨"r-allow-bots", "default", [], [], [⟨"other-uid", true⟩],
           ⟨⟨[], []⟩, [], [], []⟩⟩)⟩).err =
        some "networkpolicy default/r-allow-bots exists and is not controlled by BotNetworkPolicy"
    ∧ (reconcile ⟨"r", "default", "u", [], ⟨none, [], none, none, [], [], 0⟩⟩
        ⟨fun _ => .fetched [],
         .ok (some ⟨"r-allow-bots", "default", [], [], [⟨"other-uid", true⟩],
           ⟨⟨[], []⟩, [], [], []⟩⟩)⟩).requeueAfter = none :=
  claim8_ownership_conflict.2 _ _ _ rfl rfl rfl

/-- C9 counterexample: a declaration whose discriminator is google but whose
configMap block is populated is accepted by validation, so mixing a
discriminator with a different variant's block is not invalid. -/
theorem claim9_counterexample :
    providerValidate ⟨"google", some ⟨"cm", "", "cidrs"⟩, none⟩ = .ok () := rfl

/-- C9 amended: validation accepts exactly the five known discriminators
case-insensitively — google/aws/github unconditionally (without rejecting
populated non-matching blocks), configmap only with a configMap block whose
name and key are non-empty, jsonendpoint only with a jsonEndpoint block
whose url and fieldPath are non-empty and whose headerSecretRefs are
well-formed — and any other discriminator is rejected. -/
theorem claim9_providerValidate :
    (∀ p : ProviderSpec, providerValidate p = .ok () ↔
      ((goLower p.name = "google" ∨ goLower p.name = "aws" ∨ goLower p.name = "github")
      ∨ (goLower p.name = "configmap" ∧ ∃ c, p.configMap = some c ∧ c.name ≠ "" ∧ c.key ≠ "")
      ∨ (goLower p.name = "jsonendpoint" ∧ ∃ j, p.jsonEndpoint = some j ∧ j.url ≠ ""
          ∧ j.fieldPath ≠ ""
          ∧ ∀ r ∈ j.headerSecretRefs,
              goTrim r.name ≠ "" ∧ r.secretKeyRef.name ≠ "" ∧ r.secretKeyRef.key ≠ "")))
    ∧ (∀ p : ProviderSpec,
        goLower p.name ∉ (["google", "aws", "github", "configmap", "jsonendpoint"] : List String) →
        providerValidate p = .error ("unsupported provider: " ++ p.name)) := by
  refine ⟨providerValidate_ok_iff, ?_⟩
  intro p h
  simp only [List.mem_cons, List.not_mem_nil, or_false, not_or] at h
  obtain ⟨hg, ha, hh, hc, hj⟩ := h
  simp [providerValidate, hg, ha, hh, hc, hj]

/-- C9 witness: the theorem's rejection conjunct applied to an unknown
discriminator. -/
theorem claim9_witness :
    providerValidate ⟨"wat", none, none⟩ = .error ("unsupported provider: " ++ "wat") :=
  claim9_providerValidate.2 ⟨"wat", none, none⟩ (by decide)

/-- C10: the comparator reads only the specs, so replacing the existing
object's labels and annotations never changes its verdict; and when the
existing policy is controlled by the resource and structurally equal to the
desired one, the reconciler performs no write at all. -/
theorem claim10_noop_ignores_metadata :
    (∀ (np d : NetworkPolicy) (l a : List (String × String)),
      networkPoliciesEqual { np with labels := l, annots := a } d = networkPoliciesEqual np d)
    ∧ (∀ (resource : BotNetworkPolicy) (cidrs : List String) (np : NetworkPolicy),
        isControlledBy np resource = true →
        networkPoliciesEqual np (buildNetworkPolicy resource cidrs) = true →
        ensureNetworkPolicy resource cidrs (.ok (some np)) = ⟨none, none⟩) :=
  ⟨fun _ _ _ _ => rfl, ensureNoopWhenEqual⟩

/-- C10 witness: an existing policy with stale labels and annotations but an
equal spec is left untouched — the theorem applied to that policy, together
with the fact that its labels differ from the desired ones. -/
theorem claim10_witness :
    ([("stale", "label")] : List (String × String)) ≠
      [("botnetworkpolicy.bot.networking.dev/owner", "sample")]
    ∧ ensureNetworkPolicy
        ⟨"sample", "default", "uid-1", [], ⟨none, [], none, none, [], ["10.0.0.0/24"], 0⟩⟩
        ["10.0.0.0/24"]
        (.ok (some ⟨"sample-allow-bots", "default", [("stale", "label")], [("note", "x")],
          [⟨"uid-1", true⟩],
          ⟨⟨[], []⟩, ["Ingress"], [⟨[⟨some ⟨"10.0.0.0/24", []⟩⟩]⟩], []⟩⟩)) = ⟨none, none⟩ :=
  ⟨by decide, claim10_noop_ignores_metadata.2 _ _ _ rfl rfl⟩

end BotNP
